import Mathlib

/-
Verification development for the RSS news pipeline (app/services):
the lightweight filter, keyword extraction and scoring (keyword_scorer.py),
title normalisation, deduplication and diversity-capped selection
(article_processor.py), and the processing orchestrator
(process_rss_to_site_article together with ai_batch_service.py,
explanation_cache.py and article_cache.py).

Modelling conventions:
* Python strings are Lean `String`s (sequences of Unicode code points, so
  `len` agrees with `String.length`).
* Python floats are modelled as rationals `ℚ`; the scoring arithmetic uses
  only +, -, *, /, max on small decimal constants, where rational arithmetic
  agrees with the intended real-number reading of the source.
* Ratio comparisons such as `count / len > 0.3` are modelled by the
  equivalent integer cross-multiplication (`10 * count > 3 * len`).
* External collaborators (Google autocomplete, MeCab, the OpenAI calls,
  HTTP fetching, `html.unescape`) are parameters: every theorem is proved
  for all values of these oracles.
* Character-class tests that Python evaluates over all of Unicode
  (`str.isalpha`, regex `\w`, `\s`) are modelled over the scripts that
  actually occur in this code base (ASCII, kana, CJK); the explicit CJK
  ranges of the source regexes are kept verbatim.
-/

set_option maxRecDepth 100000
set_option maxHeartbeats 1600000

namespace NewsPipeline

/-! ## Python string primitives -/

/-- Python whitespace (`str.strip`, regex `\s`) for the character set of this
corpus: ASCII space, TAB, LF, VT, FF, CR and the ideographic space U+3000. -/
def isPyWS (c : Char) : Bool :=
  c == ' ' || c == '\t' || c == '\n' || c == '\x0b' || c == '\x0c' || c == '\r' ||
    c == '　'

/-- Strip characters satisfying `p` from the right end of a list. -/
def rstripBy (p : Char → Bool) (l : List Char) : List Char :=
  (l.reverse.dropWhile p).reverse

/-- Python `str.strip()` on the underlying character list. -/
def pyStripL (l : List Char) : List Char :=
  rstripBy isPyWS (l.dropWhile isPyWS)

/-- Python `str.strip()`. -/
def pyStrip (s : String) : String := ⟨pyStripL s.data⟩

/-- ASCII lower-casing, the effect of Python `str.lower()` on the scripts
occurring here (Japanese characters are unaffected by `lower`). -/
def pyLowerChar (c : Char) : Char :=
  if 'A' ≤ c && c ≤ 'Z' then Char.ofNat (c.toNat + 32) else c

/-- Python `str.lower()`. -/
def pyLower (s : String) : String := ⟨s.data.map pyLowerChar⟩

/-- Python slicing `s[:n]` (code-point prefix). -/
def pyTake (s : String) (n : Nat) : String := ⟨s.data.take n⟩

/-- Does `hay` start with `needle`? -/
def listStartsWith : List Char → List Char → Bool
  | [], _ => true
  | _ :: _, [] => false
  | a :: as, b :: bs => a == b && listStartsWith as bs

/-- Substring containment on character lists: Python's `needle in hay`. -/
def listContainsSub (needle : List Char) : List Char → Bool
  | [] => needle.isEmpty
  | c :: cs => listStartsWith needle (c :: cs) || listContainsSub needle cs

/-- Python `sub in text` (substring containment). -/
def pyIn (sub text : String) : Bool := listContainsSub sub.data text.data

/-- Python `str.startswith`. -/
def pyStartsWith (pre s : String) : Bool := listStartsWith pre.data s.data

/-- ASCII letter. -/
def isAsciiLetter (c : Char) : Bool :=
  ('a' ≤ c && c ≤ 'z') || ('A' ≤ c && c ≤ 'Z')

/-- ASCII digit. -/
def isAsciiDigit (c : Char) : Bool := '0' ≤ c && c ≤ '9'

/-- Python `str.isalpha()` restricted to the scripts of this corpus:
ASCII letters plus the kana/CJK block U+3040–U+9FFF. -/
def pyIsAlpha (c : Char) : Bool :=
  isAsciiLetter c || (0x3040 ≤ c.toNat && c.toNat ≤ 0x9fff)

/-- Python `max` on rationals (models `max` on floats). -/
def pymax (a b : ℚ) : ℚ := if a < b then b else a

/-! ## keyword_scorer.py — lightweight filter -/

def MIN_CONTENT_LENGTH : Nat := 80

def LOW_VALUE_CATEGORIES : List String := ["スポーツ", "エンタメ"]

/-- The literal alternatives of the regex `LOW_VALUE_TITLE_PATTERNS`
(everything except the anchored `breaking\s*:?\s*$` branch), already in
lower case for the IGNORECASE comparison. -/
def lowValueLiterals : List String :=
  ["号外", "訃報", "結果", "スコア", "芸能", "ランキング", "占い", "星座",
   "ゴシップ", "score", "results", "obituary", "gossip"]

/-- The `breaking\s*:?\s*$` alternative of `LOW_VALUE_TITLE_PATTERNS`:
case-insensitive `breaking`, optional whitespace, an optional colon, optional
whitespace, end of string. -/
def breakingAtEnd (title : String) : Bool :=
  let r := (pyLower title).data.reverse.dropWhile isPyWS
  let r2 := match r with
    | ':' :: rest => rest.dropWhile isPyWS
    | _ => r
  listStartsWith "breaking".data.reverse r2

/-- `LOW_VALUE_TITLE_PATTERNS.search(title)` as a Boolean. -/
def lowValueTitleHit (title : String) : Bool :=
  lowValueLiterals.any (fun w => pyIn w (pyLower title)) || breakingAtEnd title

def HIGH_VALUE_KEYWORDS : List String :=
  ["政策", "法案", "経済", "規制", "金利", "インフレ", "GDP", "予算", "制裁",
   "半導体", "AI", "量子", "脱炭素", "再生可能エネルギー", "外交", "安全保障",
   "サミット", "条約", "改革", "選挙", "判決", "裁判", "汚職", "調査",
   "policy", "regulation", "economy", "inflation", "legislation", "sanctions",
   "semiconductor", "quantum", "climate", "diplomacy", "summit", "reform",
   "election", "ruling", "investigation"]

/-- `any(kw in text for kw in HIGH_VALUE_KEYWORDS)`. -/
def anyHighValue (text : String) : Bool :=
  HIGH_VALUE_KEYWORDS.any (fun kw => pyIn kw text)

/-- `lightweight_filter(title, summary, category)` from keyword_scorer.py:
False for low-value articles, True for the ones to keep. -/
def lightweight_filter (title summary category : String) : Bool :=
  let text := title ++ " " ++ summary
  if (pyStrip text).length < MIN_CONTENT_LENGTH then false
  else if lowValueTitleHit title && !anyHighValue text then false
  else if LOW_VALUE_CATEGORIES.contains category && !anyHighValue text then false
  else true

/-! ## keyword_scorer.py — keyword extraction -/

def QUESTION_WORDS : List String :=
  ["何", "とは", "いつ", "どうして", "なぜ", "どう", "どこ", "誰"]

/-- `_is_japanese`: more than 15% of the characters lie in U+3040–U+9FFF or
U+FF00–U+FFEF (`count / max(len, 1) > 0.15`, as `20*count > 3*max(len,1)`). -/
def is_japanese_text (text : String) : Bool :=
  let jp := text.data.countP fun c =>
    (0x3040 ≤ c.toNat && c.toNat ≤ 0x9fff) || (0xff00 ≤ c.toNat && c.toNat ≤ 0xffef)
  20 * jp > 3 * max text.length 1

/-- One node of MeCab output: surface form plus the first two feature
fields (part of speech and sub-category). The tagger itself is an external
capability. -/
structure MecabNode where
  surface : String
  pos : String
  pos1 : String
deriving DecidableEq

/-- `_extract_keywords_japanese` given a MeCab tagger: keep noun surfaces of
length ≥ 2 whose sub-category is not 非自立/代名詞/数/接尾. -/
def extract_keywords_japanese (tagger : String → List MecabNode) (text : String) :
    List String :=
  (tagger text).filterMap fun n =>
    if n.pos == "名詞" && decide (2 ≤ n.surface.length) &&
        !(["非自立", "代名詞", "数", "接尾"].contains n.pos1) then
      some n.surface
    else none

/-- Character class `[぀-鿿ー]` of the simple extraction regex
(`ー` U+30FC already lies inside the range; kept for fidelity). -/
def isSimpleJaClass (c : Char) : Bool :=
  (0x3040 ≤ c.toNat && c.toNat ≤ 0x9fff) || c == 'ー'

theorem length_dropWhile_le {α : Type} (p : α → Bool) (l : List α) :
    (l.dropWhile p).length ≤ l.length := by
  induction l with
  | nil => simp
  | cons a as ih =>
    simp only [List.dropWhile]
    split
    · simp only [List.length_cons]
      omega
    · exact Nat.le_refl _

/-- `re.findall(r'[぀-鿿ー]{2,}|[a-zA-Z]{3,}', text)`: maximal runs of
the Japanese class of length ≥ 2, or maximal ASCII-letter runs of length ≥ 3,
scanned left to right. Each step consumes at least one character, so the
recursion is bounded by the fuel `l.length` (structural recursion on the
fuel keeps the function kernel-computable). -/
def simpleTokensF : Nat → List Char → List String
  | 0, _ => []
  | _ + 1, [] => []
  | fuel + 1, c :: cs =>
    if isSimpleJaClass c then
      let run := (c :: cs).takeWhile isSimpleJaClass
      if 2 ≤ run.length then
        ⟨run⟩ :: simpleTokensF fuel (cs.dropWhile isSimpleJaClass)
      else simpleTokensF fuel cs
    else if isAsciiLetter c then
      let run := (c :: cs).takeWhile isAsciiLetter
      if 3 ≤ run.length then
        ⟨run⟩ :: simpleTokensF fuel (cs.dropWhile isAsciiLetter)
      else simpleTokensF fuel cs
    else simpleTokensF fuel cs

/-- The token scan at full fuel. -/
def simpleTokens (l : List Char) : List String := simpleTokensF l.length l

/-- The `if w not in words: words.append(w)` accumulation of
`_extract_keywords_simple` (exact, case-sensitive). -/
def dedupKeepFirst (seen : List String) : List String → List String
  | [] => []
  | w :: ws =>
    if seen.contains w then dedupKeepFirst seen ws
    else w :: dedupKeepFirst (w :: seen) ws

/-- `_extract_keywords_simple(text)`. -/
def extract_keywords_simple (text : String) : List String :=
  (dedupKeepFirst [] (simpleTokens text.data)).take 40

/-- The case-insensitive order-preserving dedup loop of `extract_keywords`
(`seen` holds lower-cased keys). -/
def dedupCaseInsensitive (seen : List String) : List String → List String
  | [] => []
  | k :: ks =>
    if seen.contains (pyLower k) then dedupCaseInsensitive seen ks
    else k :: dedupCaseInsensitive (pyLower k :: seen) ks

/-- `extract_keywords(title, summary)`: 1-gram keywords, capped at 30.
The MeCab tagger is an optional external capability; when unavailable the
code falls back to `_extract_keywords_simple`. -/
def extract_keywords (tagger : Option (String → List MecabNode))
    (title summary : String) : List String :=
  let text := pyTake (title ++ " " ++ summary) 2000
  let kws :=
    if is_japanese_text text then
      match tagger with
      | some f => extract_keywords_japanese f text
      | none => extract_keywords_simple text
    else extract_keywords_simple text
  (dedupCaseInsensitive [] kws).take 30

/-- Adjacent-pair phrases of `make_ngrams(keywords, n=2)` before the cap. -/
def adjacentPairs : List String → List String
  | a :: b :: rest => (a ++ " " ++ b) :: adjacentPairs (b :: rest)
  | _ => []

/-- `make_ngrams(keywords)` (n = 2), capped at 20 phrases. -/
def make_ngrams (keywords : List String) : List String :=
  (adjacentPairs keywords).take 20

/-- `add_question_variants(keywords)`: first 5 keywords × first 3 question
words, in loop order. -/
def add_question_variants (keywords : List String) : List String :=
  (keywords.take 5).flatMap fun kw =>
    (QUESTION_WORDS.take 3).map fun qw => kw ++ " " ++ qw

/-! ## keyword_scorer.py — scoring -/

/-- `score_keywords_autocomplete`: autocomplete hits on the first 8 1-grams,
1.5× on the first 5 2-grams, 2× on the first 4 question variants. `pop` is
the (frozen) `_fetch_autocomplete_count` lookup. -/
def score_keywords_autocomplete (pop : String → Nat)
    (keywords_1g keywords_2g question_variants : List String) : ℚ :=
  ((keywords_1g.take 8).map fun kw => (pop kw : ℚ)).sum +
    ((keywords_2g.take 5).map fun kw => (pop kw : ℚ) * (3/2)).sum +
    ((question_variants.take 4).map fun kw => (pop kw : ℚ) * 2).sum

/-- `sum(3 for kw in HIGH_VALUE_KEYWORDS if kw in text)`. -/
def hvBonus (text : String) : ℚ :=
  3 * (HIGH_VALUE_KEYWORDS.countP fun kw => pyIn kw text : Nat)

/-- `5 * count(kw.lower() in text.lower())`, guarded by the truthiness test
`if trend_keywords:` (None or the empty list give 0). -/
def trendBonus (trend_keywords : Option (List String)) (text : String) : ℚ :=
  match trend_keywords with
  | none => 0
  | some l =>
    if l.isEmpty then 0
    else 5 * (l.countP fun kw => pyIn (pyLower kw) (pyLower text) : Nat)

/-- The recency bonus of `score_article`. `published` is the item's
timestamp and `now` the wall clock at the call (`datetime.now()`), both in
epoch seconds; `None` published gives no bonus. -/
def recencyBonus (published : Option ℚ) (now : ℚ) : ℚ :=
  match published with
  | none => 0
  | some p =>
    let delta := now - p
    let hours_ago := delta / 3600
    pymax 0 (15 - hours_ago * (1/2))

/-- `score_article(title, summary, category, trend_keywords, published)`.
`category` is accepted but never read by the source. `now` is the value of
`datetime.now()` during the call. -/
def score_article (pop : String → Nat) (tagger : Option (String → List MecabNode))
    (title summary category : String) (trend_keywords : Option (List String))
    (published : Option ℚ) (now : ℚ) : ℚ :=
  let kw_1g := extract_keywords tagger title summary
  let kw_2g := make_ngrams kw_1g
  let q_variants := add_question_variants kw_1g
  let ac_score := score_keywords_autocomplete pop kw_1g kw_2g q_variants
  let text := title ++ " " ++ summary
  let _ := category
  ac_score + hvBonus text + trendBonus trend_keywords text + recencyBonus published now

/-! ## rss_service.py — the candidate record -/

/-- `NewsItem` from rss_service.py. `published` is the timestamp in epoch
seconds (a `datetime` in the source). -/
structure NewsItem where
  id : String
  title : String
  link : String
  summary : String
  published : ℚ
  source : String
  category : String
  image_url : Option String
deriving DecidableEq

/-! ## keyword_scorer.py — rank_and_filter_articles -/

/-- `rank_and_filter_articles(items, trend_keywords, max_articles)`:
lightweight filter, then score and sort descending (Python `list.sort` with
`reverse=True` is a stable descending sort, modelled by the stable
`insertionSort` under the relation "left score not below right score"),
then the top `max_articles`. If the filter rejects everything the original
list's first `max_articles` items are returned unchanged. -/
def rank_and_filter_articles (pop : String → Nat)
    (tagger : Option (String → List MecabNode)) (now : ℚ) (items : List NewsItem)
    (trend_keywords : Option (List String)) (max_articles : Nat) : List NewsItem :=
  let filtered := items.filter fun x => lightweight_filter x.title x.summary x.category
  if filtered.isEmpty then items.take max_articles
  else
    let scored := filtered.map fun x =>
      (score_article pop tagger x.title x.summary x.category trend_keywords
        (some x.published) now, x)
    let sorted := scored.insertionSort fun a b => b.1 ≤ a.1
    (sorted.take max_articles).map Prod.snd

/-! ## article_processor.py — title normalisation and dedup -/

/-- Maximal whitespace runs replaced by a single space
(`re.sub(r"\s+", " ", ...)`); fuel-bounded as in `simpleTokensF`. -/
def collapseWSF : Nat → List Char → List Char
  | 0, l => l
  | _ + 1, [] => []
  | fuel + 1, c :: cs =>
    if isPyWS c then ' ' :: collapseWSF fuel (cs.dropWhile isPyWS)
    else c :: collapseWSF fuel cs

/-- The whitespace collapse at full fuel. -/
def collapseWS (l : List Char) : List Char := collapseWSF l.length l

/-- A character kept by `re.sub(r"[^\w぀-鿿゠-ヿ一-鿿\s]", "", t)`:
word characters (modelled as ASCII alphanumerics, underscore, and — as
Unicode `\w` also matches CJK letters — the kana/CJK block), the two
explicit kana/CJK ranges of the source, or whitespace. -/
def isNormKeep (c : Char) : Bool :=
  isAsciiLetter c || isAsciiDigit c || c == '_' ||
    (0x3040 ≤ c.toNat && c.toNat ≤ 0x9fff) ||
    (0x30a0 ≤ c.toNat && c.toNat ≤ 0x30ff) ||
    (0x4e00 ≤ c.toNat && c.toNat ≤ 0x9fff) ||
    isPyWS c

/-- `_normalize_title_for_dedup(title)`: strip, collapse whitespace, lower,
drop everything but word/kana/CJK/whitespace characters, strip again. -/
def normalize_title_for_dedup (title : String) : String :=
  let t := pyLower ⟨collapseWS (pyStrip title).data⟩
  pyStrip ⟨t.data.filter isNormKeep⟩

/-- The dedup walk of `process_new_rss_articles`: drop candidates whose
normalised title is among the published ones (`existing`) or was seen
earlier in the walk; keep the first occurrence otherwise. -/
def dedup_by_norm (existing : List String) (seen : List String) :
    List NewsItem → List NewsItem
  | [] => []
  | x :: xs =>
    let n := normalize_title_for_dedup x.title
    if existing.contains n then dedup_by_norm existing seen xs
    else if seen.contains n then dedup_by_norm existing seen xs
    else x :: dedup_by_norm existing (n :: seen) xs

/-! ## article_processor.py — diversity-capped selection -/

/-- `item.category or "総合"`: the category key counted by the diversity
caps (an empty category falls into the general bucket). -/
def catKey (x : NewsItem) : String :=
  if x.category = "" then "総合" else x.category

/-- First pass of `_select_diverse_batch`: walk the items, skipping any
whose source or (defaulted) category has reached its cap, until
`max_per_run` are chosen. The Python dicts `source_count`/`category_count`
are modelled as total functions with default 0. -/
def select_pass1 (max_per_run max_per_source max_per_category : Nat)
    (sc cc : String → Nat) (chosen : List NewsItem) :
    List NewsItem → List NewsItem
  | [] => chosen
  | x :: xs =>
    if max_per_run ≤ chosen.length then chosen
    else
      let src := x.source
      let cat := catKey x
      if max_per_source ≤ sc src ∨ max_per_category ≤ cc cat then
        select_pass1 max_per_run max_per_source max_per_category sc cc chosen xs
      else
        select_pass1 max_per_run max_per_source max_per_category
          (fun s => if s = src then sc s + 1 else sc s)
          (fun s => if s = cat then cc s + 1 else cc s)
          (chosen ++ [x]) xs

/-- Second pass of `_select_diverse_batch`: append not-yet-chosen items in
order, ignoring the caps, until `max_per_run` is reached. -/
def select_pass2 (max_per_run : Nat) (chosen : List NewsItem) :
    List NewsItem → List NewsItem
  | [] => chosen
  | x :: xs =>
    if max_per_run ≤ chosen.length then chosen
    else if chosen.contains x then select_pass2 max_per_run chosen xs
    else select_pass2 max_per_run (chosen ++ [x]) xs

/-- `_select_diverse_batch(items, max_per_run, max_per_source,
max_per_category)`. -/
def select_diverse_batch (items : List NewsItem)
    (max_per_run max_per_source max_per_category : Nat) : List NewsItem :=
  let chosen1 :=
    select_pass1 max_per_run max_per_source max_per_category
      (fun _ => 0) (fun _ => 0) [] items
  let chosen2 :=
    if chosen1.length < max_per_run then select_pass2 max_per_run chosen1 items
    else chosen1
  chosen2.take max_per_run

/-! ## Persistence model (article_cache.py, explanation_cache.py)

The SQLite stores are modelled as in-memory association structures keyed by
article id. `articles` is kept in `added_at`-descending order, which is how
`load_all` returns it; `INSERT OR REPLACE` therefore moves a row to the
front. The explanation cache rows hold the parsed block list and the five
persona strings. -/

/-- One generated content block (the dicts produced by the AI layer, with a
`type` discriminator, a `content` payload and an optional `section` tag). -/
structure Block where
  btype : String
  content : String
  sectionTag : String
deriving DecidableEq

/-- One row of `explanation_cache` (GeneratedContent). -/
structure CacheEntry where
  blocks : List Block
  personas : List String
deriving DecidableEq

/-- The two persistent stores: published articles and generated content. -/
structure Store where
  articles : List NewsItem
  cache : List (String × CacheEntry)
deriving DecidableEq

/-- `_is_bad_fallback_cache(blocks)` from explanation_cache.py. -/
def is_bad_fallback_cache (blocks : List Block) : Bool :=
  if blocks.length ≠ 2 then false
  else if blocks.map (fun b => b.btype) ≠ ["text", "explain"] then false
  else
    let explain_content :=
      ((blocks.find? fun b => b.btype == "explain").map fun b => b.content).getD ""
    ["構造化に失敗", "通常の解説を表示", "しばらくしてから再度"].any
      fun p => pyIn p explain_content

/-- Raw cache lookup by article id. -/
def lookupCache (st : Store) (article_id : String) : Option CacheEntry :=
  (st.cache.find? fun p => p.1 == article_id).map Prod.snd

/-- `get_cached(article_id)`: `None` when missing or when the stored blocks
are a recognised bad fallback (so the article is regenerated). -/
def get_cached (st : Store) (article_id : String) : Option CacheEntry :=
  match lookupCache st article_id with
  | none => none
  | some e => if is_bad_fallback_cache e.blocks then none else some e

/-- `get_cached_article_ids()`: the ids having an explanation row (bad
fallback rows included — the id query does not inspect the blocks). -/
def cachedIds (st : Store) : List String := st.cache.map Prod.fst

/-- Pad the persona list to five entries (`while len(personas) < 5`)
and keep the first five, as `save_cache` stores them. -/
def padPersonas (personas : List String) : List String :=
  (personas ++ List.replicate (5 - personas.length) "").take 5

/-- A successful `save_cache(article_id, blocks, personas)`:
`INSERT OR REPLACE` into the explanation cache. -/
def putCache (st : Store) (article_id : String) (blocks : List Block)
    (personas : List String) : Store :=
  { st with cache :=
      (article_id, ⟨blocks, padPersonas personas⟩) ::
        st.cache.filter fun p => !(p.1 == article_id) }

/-- A successful `save_article(item)`: `INSERT OR REPLACE` into the article
store (the summary is truncated to 4000 characters, `item.summary[:4000]`);
the fresh `added_at` moves the row to the front of `load_all`. -/
def putArticle (st : Store) (item : NewsItem) : Store :=
  { st with articles :=
      { item with summary := pyTake item.summary 4000 } ::
        st.articles.filter fun a => !(a.id == item.id) }

/-! ## translate_service.py — language heuristics -/

def FOREIGN_SOURCES : List String :=
  ["Reuters", "AP News", "BBC News", "共同通信", "World News International",
   "Le Monde"]

/-- `title_looks_english(title)`: over half of the alphabetic characters are
ASCII (`ratio > 0.5` as `2 * ascii > letters`). -/
def title_looks_english (title : String) : Bool :=
  if title.length < 3 then false
  else
    let ascii_count := title.data.countP fun c => c.toNat < 128 && pyIsAlpha c
    let letter_count := title.data.countP pyIsAlpha
    if letter_count < 3 then false
    else 2 * ascii_count > letter_count

/-- `summary_looks_english(summary)` (`ratio > 0.4` as `5*a > 2*l`). -/
def summary_looks_english (summary : String) : Bool :=
  if summary.length < 10 then false
  else
    let sample := (pyTake summary 600).data
    let ascii_letters := sample.countP fun c => c.toNat < 128 && pyIsAlpha c
    let letters := sample.countP pyIsAlpha
    if letters < 5 then false
    else 5 * ascii_letters > 2 * letters

/-- `text_mainly_japanese(text)`: short texts pass trivially; otherwise more
than 30% kana/CJK in the first 500 characters (`10 * ja > 3 * len`). -/
def text_mainly_japanese (text : String) : Bool :=
  if text.length < 5 then true
  else
    let sample := (pyTake text 500).data
    let ja := sample.countP fun c =>
      (0x3040 ≤ c.toNat && c.toNat ≤ 0x309f) ||
        (0x30a0 ≤ c.toNat && c.toNat ≤ 0x30ff) ||
        (0x4e00 ≤ c.toNat && c.toNat ≤ 0x9fff)
    10 * ja > 3 * sample.length

/-- `is_foreign_article(source, title, summary)`. -/
def is_foreign_article (source title summary : String) : Bool :=
  if FOREIGN_SOURCES.contains source then true
  else if title_looks_english title then true
  else if summary ≠ "" && summary_looks_english summary then true
  else if title ≠ "" && !text_mainly_japanese title then true
  else if summary ≠ "" && !text_mainly_japanese summary then true
  else
    let text := title ++ " " ++ summary
    if text.length < 5 then false
    else 2 * (text.data.countP fun c => c.toNat < 128) > text.length

/-! ## rss_service.py — sanitize_display_text -/

/-- Remove every match of `<[^>]*>`: from a `<`, if a `>` follows, drop up
to and including the first such `>` (the shortest completed tag), otherwise
no further match is possible and the remainder is kept. -/
def stripTagsClosedF : Nat → List Char → List Char
  | 0, l => l
  | _ + 1, [] => []
  | fuel + 1, c :: rest =>
    if c = '<' then
      if rest.any (fun d => d == '>') then
        stripTagsClosedF fuel ((rest.dropWhile fun d => !(d == '>')).tail)
      else c :: rest
    else c :: stripTagsClosedF fuel rest

/-- The closed-tag removal at full fuel (each step consumes at least one
character, so `l.length` fuel always suffices). -/
def stripTagsClosed (l : List Char) : List Char := stripTagsClosedF l.length l

/-- Remove every match of `<[^>]*` (a `<` and the greedy run of
non-`>` characters after it). -/
def stripTagsOpenF : Nat → List Char → List Char
  | 0, l => l
  | _ + 1, [] => []
  | fuel + 1, c :: rest =>
    if c = '<' then stripTagsOpenF fuel (rest.dropWhile fun d => !(d == '>'))
    else c :: stripTagsOpenF fuel rest

/-- The open-tag removal at full fuel. -/
def stripTagsOpen (l : List Char) : List Char := stripTagsOpenF l.length l

/-- `sanitize_display_text(text)`; `unescape` is the stdlib
`html.unescape`, passed in as a fixed external function. -/
def sanitize_display_text (unescape : String → String) (text : String) : String :=
  if text = "" then ""
  else
    let t1 : String := ⟨stripTagsClosed text.data⟩
    let t2 : String := ⟨stripTagsOpen t1.data⟩
    let t3 := unescape t2
    pyStrip ⟨collapseWS t3.data⟩

/-! ## article_processor.py — _add_bracket_title -/

/-- The rule-based fallback table of `_add_bracket_title` (each pattern is a
plain alternation of literal substrings). -/
def bracket_map : List (List String × String) :=
  [(["なぜ", "理由", "原因", "背景", "どうして"], "なぜ"),
   (["何", "とは", "どういう"], "真相"),
   (["発表", "公開", "開始", "解禁", "決定"], "速報"),
   (["判明", "発覚", "明らかに"], "判明"),
   (["初めて", "史上初", "世界初", "日本初"], "驚き"),
   (["急増", "急落", "急騰", "暴落", "高騰"], "激震"),
   (["改正", "法案", "規制", "制裁"], "要注意"),
   (["危機", "懸念", "警告", "リスク"], "警鐘"),
   (["合意", "締結", "連携", "提携"], "注目"),
   (["戦争", "紛争", "攻撃", "侵攻"], "緊迫"),
   (["逮捕", "起訴", "容疑", "事件"], "衝撃"),
   (["勝利", "優勝", "達成", "記録"], "快挙")]

/-- A bracket or corner-bracket character, stripped from the AI label by
`.strip("【】「」")`. -/
def isLabelBracket (c : Char) : Bool :=
  c == '【' || c == '】' || c == '「' || c == '」'

/-- `.strip().strip("【】「」").strip()` applied to the raw AI output. -/
def stripLabelChars (s : String) : String :=
  pyStrip ⟨rstripBy isLabelBracket ((pyStrip s).data.dropWhile isLabelBracket)⟩

/-- `_add_bracket_title(title)`. `ai_label` is the OpenAI call producing
the bracket phrase (`none` models a missing API key, an exception, or any
other fall-through to the rule-based table). -/
def add_bracket_title (ai_label : String → Option String) (title : String) :
    String :=
  if pyStartsWith "【" title then title
  else
    let t := pyStrip title
    let viaAI : Option String :=
      match ai_label (pyTake t 200) with
      | none => none
      | some raw =>
        let label := stripLabelChars raw
        if label ≠ "" ∧ label.length ≤ 6 then some ("【" ++ label ++ "】" ++ t)
        else none
    match viaAI with
    | some r => r
    | none =>
      match bracket_map.find? fun pr => pr.1.any fun w => pyIn w t with
      | some pr => "【" ++ pr.2 ++ "】" ++ t
      | none => "【必見】" ++ t

/-! ## The external capabilities of one pipeline run -/

/-- Oracles for every external collaborator touched by the pipeline, fixed
for the duration of a run. Theorems quantify over all of them. -/
structure Ext where
  /-- `_fetch_autocomplete_count` with its process-lifetime cache frozen. -/
  pop : String → Nat
  /-- The MeCab tagger; `none` when the import fails. -/
  tagger : Option (String → List MecabNode)
  /-- The value of `datetime.now()` (epoch seconds) during scoring. -/
  now : ℚ
  /-- `translate_and_rewrite(title, summary)` (LLM, with fallbacks). -/
  translate_and_rewrite : String → String → String × String
  /-- `translate_title_to_japanese(title)`. -/
  translate_title_to_japanese : String → String
  /-- `translate_article_body(body)`. -/
  translate_article_body : String → String
  /-- `fetch_article_body(url)`; `None` means "use the summary only". -/
  fetch_article_body : String → Option String
  /-- The OpenAI bracket-label call inside `_add_bracket_title`; `none` is
  a missing key or an exception. -/
  bracket_label : String → Option String
  /-- stdlib `html.unescape`. -/
  unescape : String → String
  /-- `explain_article_long_with_bubbles(title, content)`: the content
  generation capability; `[]` signals failure. -/
  gen_blocks : String → String → List Block
  /-- `get_persona_opinion(title, content, i)`. -/
  gen_persona : Nat → String → String → String
  /-- Whether `save_article(item)` succeeds (persistence may fail
  recoverably; on success the store update is `putArticle`). -/
  save_article_ok : NewsItem → Bool

/-- The Python `TypeError` raised by a call whose keyword arguments do not
match the callee's signature. -/
inductive PyErr where
  | typeError
deriving DecidableEq

/-- Persistence events of one `process_rss_to_site_article` run, in
program order: a successful `save_article` or `save_cache` for an id. -/
inductive Ev where
  | saveArticle (id : String)
  | saveCache (id : String)
deriving DecidableEq

/-! ## article_processor.py — the orchestrator -/

/-- Lines 41–82 of `process_rss_to_site_article`: decide whether
translation is needed, translate title and summary (with the title retry
and the summary retry), add the bracket prefix, and rebuild the item. -/
def prepared_item (ext : Ext) (item : NewsItem) : NewsItem :=
  let need0 := is_foreign_article item.source item.title item.summary
  let need1 := need0 || (item.title ≠ "" && !text_mainly_japanese item.title)
  let need2 := need1 || (item.summary ≠ "" && !text_mainly_japanese item.summary)
  let tj_sj :=
    if need2 then
      let ts := ext.translate_and_rewrite item.title item.summary
      let tj := if ts.1 ≠ "" && text_mainly_japanese ts.1 then ts.1 else item.title
      let sj := if ts.2 ≠ "" && text_mainly_japanese ts.2 then ts.2 else item.summary
      let tj2 :=
        if !text_mainly_japanese tj then
          let t2 := ext.translate_title_to_japanese item.title
          if t2 ≠ "" && text_mainly_japanese t2 then t2 else tj
        else tj
      let sj2 :=
        if !text_mainly_japanese sj then
          let ts2 := ext.translate_and_rewrite item.title item.summary
          if ts2.2 ≠ "" && text_mainly_japanese ts2.2 then ts2.2 else sj
        else sj
      (tj2, sj2)
    else (item.title, item.summary)
  let title2 :=
    if pyStartsWith "【" tj_sj.1 then tj_sj.1
    else add_bracket_title ext.bracket_label tj_sj.1
  { item with title := title2, summary := tj_sj.2 }

/-- Lines 84–94: fetch the article body if possible, sanitise and
translate it, and assemble the content string handed to generation. -/
def prepared_content (ext : Ext) (item2 : NewsItem) : String :=
  let body := (ext.fetch_article_body item2.link).getD ""
  if body ≠ "" then
    let body_clean := pyTake (sanitize_display_text ext.unescape body) 40000
    let body_clean2 :=
      if is_foreign_article item2.source item2.title body_clean then
        ext.translate_article_body body_clean
      else body_clean
    sanitize_display_text ext.unescape
      (item2.title ++ "\n\n" ++ item2.summary ++ "\n\n" ++ body_clean2)
  else
    sanitize_display_text ext.unescape (item2.title ++ "\n\n" ++ item2.summary)

/-- `generate_all_explanations(article_id, title, content)` from
ai_batch_service.py. On a cache hit the cached entry is returned and
nothing is written. On a miss the blocks and personas are generated, but
the closing call `save_cache(article_id, blocks, personas,
quick_understand=..., vote_data=...)` passes keyword arguments that the
imported `explanation_cache.save_cache(article_id, blocks, personas)` does
not declare, so Python raises `TypeError` at the call site — before the
cache write and before the function can return. (The Firestore-level
`firestore_save_cache` does accept those keywords; the dispatcher was not
updated.) The result is the raised-or-returned value together with the
store and the persistence events. -/
def generate_all_explanations (ext : Ext) (st : Store)
    (article_id title content : String) :
    Except PyErr CacheEntry × Store × List Ev :=
  match get_cached st article_id with
  | some cached => (.ok cached, st, [])
  | none =>
    let blocks := ext.gen_blocks title content
    let personas := (List.range 5).map fun i => ext.gen_persona i title content
    let _ := (blocks, personas)
    (.error .typeError, st, [])

/-- `process_rss_to_site_article(item, force)` from article_processor.py:
skip when already processed (unless forced), prepare the Japanese item and
its content, generate explanations, and on success persist the article
first and the explanation cache second. The first component is the Python
return value (or the propagated exception), then the resulting store, then
the persistence events in program order. -/
def process_rss_to_site_article (ext : Ext) (st : Store) (item : NewsItem)
    (force : Bool) : Except PyErr Bool × Store × List Ev :=
  if !force && (get_cached st item.id).isSome then (.ok false, st, [])
  else
    let item2 := prepared_item ext item
    let content := prepared_content ext item2
    let g := generate_all_explanations ext st item.id item2.title content
    match g.1 with
    | .error e => (.error e, g.2.1, g.2.2)
    | .ok data =>
      let blocks := data.blocks
      let personas := data.personas
      if blocks.isEmpty then (.ok false, g.2.1, g.2.2)
      else if ext.save_article_ok item2 then
        let st2 := putArticle g.2.1 item2
        let st3 := putCache st2 item.id blocks personas
        (.ok true, st3, g.2.2 ++ [.saveArticle item.id, .saveCache item.id])
      else (.ok false, g.2.1, g.2.2)

/-! ## article_processor.py — process_new_rss_articles -/

/-- Lines 228–259 of `process_new_rss_articles`: split off the uncached
candidates, rank the uncached ones (or, if none remain, the whole batch
with `force=True`), dedup against the published history and within the
batch, and select the diverse batch. Returns the `to_process` list and the
`force` flag. -/
def rss_selection (ext : Ext) (st : Store) (rss_items : List NewsItem)
    (max_per_run : Nat) (trend_keywords : Option (List String)) :
    List NewsItem × Bool :=
  let cached_ids := cachedIds st
  let uncached := rss_items.filter fun x => !(cached_ids.contains x.id)
  let ranked_force :=
    if !uncached.isEmpty then
      (rank_and_filter_articles ext.pop ext.tagger ext.now uncached trend_keywords
        (max_per_run * 3), false)
    else
      (rank_and_filter_articles ext.pop ext.tagger ext.now rss_items trend_keywords
        (max_per_run * 3), true)
  let existing_norm := st.articles.map fun a => normalize_title_for_dedup a.title
  let deduped := dedup_by_norm existing_norm [] ranked_force.1
  (select_diverse_batch deduped max_per_run 2 2, ranked_force.2)

/-- `process_new_rss_articles(rss_items, max_per_run, trend_keywords)`:
run the selection, then process each selected item (exceptions are caught
per item by the `try/except` and logged). Returns the processed count and
the final store. -/
def process_new_rss_articles (ext : Ext) (st : Store) (rss_items : List NewsItem)
    (max_per_run : Nat) (trend_keywords : Option (List String)) : Nat × Store :=
  if rss_items.isEmpty then (0, st)
  else
    let sel := rss_selection ext st rss_items max_per_run trend_keywords
    sel.1.foldl
      (fun acc item =>
        match process_rss_to_site_article ext acc.2 item sel.2 with
        | (.ok true, st2, _) => (acc.1 + 1, st2)
        | (.ok false, st2, _) => (acc.1, st2)
        | (.error _, st2, _) => (acc.1, st2))
      (0, st)

/-! ## Concrete oracles used by witnesses and counterexamples -/

/-- A trivial popularity lookup (every autocomplete query returns 0). -/
def pop0 : String → Nat := fun _ => 0

/-- A concrete external environment: no MeCab, no network, identity
translations, generation fails (`[]`), persistence succeeds. -/
def ext0 : Ext where
  pop := pop0
  tagger := none
  now := 0
  translate_and_rewrite := fun t s => (t, s)
  translate_title_to_japanese := fun t => t
  translate_article_body := fun b => b
  fetch_article_body := fun _ => none
  bracket_label := fun _ => none
  unescape := fun s => s
  gen_blocks := fun _ _ => []
  gen_persona := fun _ _ _ => ""
  save_article_ok := fun _ => true

/-! ## Supporting lemmas on the string primitives -/

theorem length_rstripBy_le (p : Char → Bool) (l : List Char) :
    (rstripBy p l).length ≤ l.length := by
  unfold rstripBy
  have := length_dropWhile_le p l.reverse
  simp only [List.length_reverse] at *
  omega

theorem length_pyStripL_le (l : List Char) : (pyStripL l).length ≤ l.length := by
  unfold pyStripL
  have h1 := length_dropWhile_le isPyWS l
  have h2 := length_rstripBy_le isPyWS (l.dropWhile isPyWS)
  omega

theorem listStartsWith_refl (l : List Char) : listStartsWith l l = true := by
  induction l with
  | nil => rfl
  | cons a as ih => simp [listStartsWith, ih]

theorem listContainsSub_suffix (k pre : List Char) :
    listContainsSub k (pre ++ k) = true := by
  induction pre with
  | nil =>
    cases k with
    | nil => rfl
    | cons c cs => simp [listContainsSub, listStartsWith_refl]
  | cons p ps ih => simp [listContainsSub, ih]

theorem length_dropWhile_append_ge (p : Char → Bool) (xs ys : List Char) :
    (List.dropWhile p ys).length ≤ (List.dropWhile p (xs ++ ys)).length := by
  rw [List.dropWhile_append]
  split
  · exact Nat.le_refl _
  · have h1 := length_dropWhile_le p ys
    simp only [List.length_append]
    omega

theorem length_rstripBy_append_ge (p : Char → Bool) (u b : List Char) :
    (rstripBy p u).length ≤ (rstripBy p (u ++ b)).length := by
  unfold rstripBy
  simp only [List.length_reverse, List.reverse_append]
  exact length_dropWhile_append_ge p b.reverse u.reverse

theorem length_pyStripL_append_ge (a b : List Char) :
    (pyStripL a).length ≤ (pyStripL (a ++ b)).length := by
  unfold pyStripL
  rw [List.dropWhile_append]
  split
  · rename_i hemp
    rw [List.isEmpty_iff] at hemp
    rw [hemp]
    simp only [rstripBy, List.reverse_nil, List.dropWhile_nil, List.length_nil]
    exact Nat.zero_le _
  · exact length_rstripBy_append_ge isPyWS _ b

/-! ## C8 — minimum-length rejection -/

/-- C8: `lightweight_filter` returns False whenever the combined text
`title + " " + summary` is shorter than `MIN_CONTENT_LENGTH = 80`
characters (stripping only shortens the text, so the length guard fires). -/
theorem short_text_rejected (title summary category : String)
    (h : (title ++ " " ++ summary).length < MIN_CONTENT_LENGTH) :
    lightweight_filter title summary category = false := by
  have hs : (pyStrip (title ++ " " ++ summary)).length < MIN_CONTENT_LENGTH := by
    have h1 := length_pyStripL_le (title ++ " " ++ summary).data
    have h2 : (pyStrip (title ++ " " ++ summary)).length
        = (pyStripL (title ++ " " ++ summary).data).length := rfl
    have h3 : (title ++ " " ++ summary).length
        = (title ++ " " ++ summary).data.length := rfl
    omega
  simp only [lightweight_filter]
  rw [if_pos hs]

/-- C8 witness: the title `速報` with an empty summary is rejected. -/
theorem short_text_rejected_witness :
    ("速報" ++ " " ++ "").length < MIN_CONTENT_LENGTH ∧
      lightweight_filter "速報" "" "総合" = false :=
  ⟨by decide, short_text_rejected "速報" "" "総合" (by decide)⟩

/-! ## C9 — appending a high-value keyword never flips acceptance -/

/-- C9: if the filter accepts `(title, summary, category)` then it also
accepts after appending a high-value keyword to the summary: the length
guard still passes and the keyword occurrence satisfies both keyword
rescues. -/
theorem filter_monotone_high_value_append (title summary category k : String)
    (hk : k ∈ HIGH_VALUE_KEYWORDS)
    (h : lightweight_filter title summary category = true) :
    lightweight_filter title (summary ++ " " ++ k) category = true := by
  have hdata : (title ++ " " ++ (summary ++ " " ++ k)).data
      = (title ++ " " ++ summary).data ++ (" " ++ k).data := by
    simp [String.data_append, List.append_assoc]
  have h80 : ¬ (pyStrip (title ++ " " ++ summary)).length < MIN_CONTENT_LENGTH := by
    intro hlt
    simp only [lightweight_filter] at h
    rw [if_pos hlt] at h
    exact Bool.false_ne_true h
  have hlen_ok :
      ¬ (pyStrip (title ++ " " ++ (summary ++ " " ++ k))).length < MIN_CONTENT_LENGTH := by
    intro hlt
    apply h80
    have mono :=
      length_pyStripL_append_ge (title ++ " " ++ summary).data (" " ++ k).data
    have hlt2 : (pyStripL (title ++ " " ++ (summary ++ " " ++ k)).data).length
        < MIN_CONTENT_LENGTH := hlt
    rw [hdata] at hlt2
    have h2 : (pyStrip (title ++ " " ++ summary)).length
        = (pyStripL (title ++ " " ++ summary).data).length := rfl
    omega
  have hHV : anyHighValue (title ++ " " ++ (summary ++ " " ++ k)) = true := by
    apply List.any_eq_true.mpr
    refine ⟨k, hk, ?_⟩
    show pyIn k (title ++ " " ++ (summary ++ " " ++ k)) = true
    unfold pyIn
    rw [show (title ++ " " ++ (summary ++ " " ++ k)).data
        = (title ++ " " ++ summary ++ " ").data ++ k.data from by
      simp [String.data_append, List.append_assoc]]
    exact listContainsSub_suffix _ _
  simp only [lightweight_filter]
  rw [if_neg hlen_ok]
  simp [hHV]

/-- C9 witness: an accepted 80-character title stays accepted after
appending the high-value keyword `経済` to the summary. -/
theorem filter_monotone_high_value_append_witness :
    ("経済" ∈ HIGH_VALUE_KEYWORDS ∧
        lightweight_filter
          "ああああああああああああああああああああああああああああああああああああああああああああああああああああああああああああああああああああああああああああああああああああああああ"
          "" "総合" = true) ∧
      lightweight_filter
        "ああああああああああああああああああああああああああああああああああああああああああああああああああああああああああああああああああああああああああああああああああああああああ"
        ("" ++ " " ++ "経済") "総合" = true :=
  ⟨⟨by decide, by decide⟩,
    filter_monotone_high_value_append _ "" "総合" "経済" (by decide) (by decide)⟩

/-! ## C6 — trending keywords add 5 per present keyword -/

/-- C6: with a duplicate-free trending list, the trending keywords change
the score by exactly `5` for each keyword that occurs (case-insensitively)
in `title + " " + summary` — the contribution counts keyword presence, not
occurrences of the phrase in the text, and an absent keyword adds 0. -/
theorem trending_keyword_presence_bonus (pop : String → Nat)
    (tagger : Option (String → List MecabNode)) (title summary category : String)
    (published : Option ℚ) (now : ℚ) (l : List String) (h : l.Nodup) :
    score_article pop tagger title summary category (some l) published now =
      score_article pop tagger title summary category none published now +
        5 * (l.countP fun kw =>
          pyIn (pyLower kw) (pyLower (title ++ " " ++ summary)) : Nat) := by
  have _hdup := h
  simp only [score_article, trendBonus]
  cases l with
  | nil => simp
  | cons k ks =>
    simp only [List.isEmpty_cons, Bool.false_eq_true, if_false]
    ring

/-- C6 witness: `量子コンピュータ` present twice in the text adds exactly
`5 * 1`. -/
theorem trending_keyword_presence_bonus_witness :
    List.Nodup ["量子コンピュータ"] ∧
      score_article pop0 none "量子コンピュータと量子コンピュータ" "" "テクノロジー"
          (some ["量子コンピュータ"]) (some 0) 0 =
        score_article pop0 none "量子コンピュータと量子コンピュータ" "" "テクノロジー"
            none (some 0) 0 +
          5 * (List.countP
            (fun kw => pyIn (pyLower kw)
              (pyLower ("量子コンピュータと量子コンピュータ" ++ " " ++ "")))
            ["量子コンピュータ"] : Nat) :=
  ⟨by decide,
    trending_keyword_presence_bonus pop0 none "量子コンピュータと量子コンピュータ" ""
      "テクノロジー" (some 0) 0 ["量子コンピュータ"] (by decide)⟩

/-! ## C7 — scoring and the wall clock -/

/-- C7 (amended): with every listed input fixed, two score computations
differ exactly by the difference of their recency bonuses; the wall-clock
reading `datetime.now()` is a hidden input of `score_article`, and it is
the only one. -/
theorem score_clock_dependence_only_recency (pop : String → Nat)
    (tagger : Option (String → List MecabNode)) (title summary category : String)
    (trends : Option (List String)) (published : Option ℚ) (now1 now2 : ℚ) :
    score_article pop tagger title summary category trends published now1 -
        score_article pop tagger title summary category trends published now2 =
      recencyBonus published now1 - recencyBonus published now2 := by
  simp only [score_article]
  ring

/-- C7 counterexample: the same candidate, scored with the same frozen
popularity lookup but at two different wall-clock instants (publication
time and four hours later), yields two different floats. -/
theorem score_differs_across_call_times :
    score_article pop0 none "ai" "" "総合" none (some 0) 0 ≠
      score_article pop0 none "ai" "" "総合" none (some 0) 14400 := by
  have e : extract_keywords none "ai" "" = [] := by decide
  have hcount : (HIGH_VALUE_KEYWORDS.countP fun kw => pyIn kw ("ai" ++ " " ++ "")) = 0 := by
    decide
  have h1 : score_article pop0 none "ai" "" "総合" none (some 0) 0 = 15 := by
    simp only [score_article, e, make_ngrams, adjacentPairs, add_question_variants,
      score_keywords_autocomplete, hvBonus, trendBonus, recencyBonus, pymax, hcount,
      List.take_nil, List.map_nil, List.sum_nil, List.flatMap_nil]
    norm_num
  have h2 : score_article pop0 none "ai" "" "総合" none (some 0) 14400 = 13 := by
    simp only [score_article, e, make_ngrams, adjacentPairs, add_question_variants,
      score_keywords_autocomplete, hvBonus, trendBonus, recencyBonus, pymax, hcount,
      List.take_nil, List.map_nil, List.sum_nil, List.flatMap_nil]
    norm_num
  rw [h1, h2]
  norm_num

/-! ## C10 — rank_and_filter_articles bounds and the all-rejected fallback -/

theorem mem_rank_and_filter {pop : String → Nat}
    {tagger : Option (String → List MecabNode)} {now : ℚ} {items : List NewsItem}
    {trends : Option (List String)} {max_articles : Nat} {x : NewsItem}
    (hx : x ∈ rank_and_filter_articles pop tagger now items trends max_articles) :
    x ∈ items := by
  simp only [rank_and_filter_articles] at hx
  split at hx
  · exact List.Sublist.mem hx (List.take_sublist _ _)
  · rcases List.mem_map.mp hx with ⟨pair, hpair, rfl⟩
    have h1 := List.Sublist.mem hpair (List.take_sublist _ _)
    have h2 := ((List.perm_insertionSort _ _).mem_iff).mp h1
    rcases List.mem_map.mp h2 with ⟨y, hy, rfl⟩
    exact (List.mem_filter.mp hy).1

/-- C10: `rank_and_filter_articles` returns at most `max_articles` items,
each drawn from the input; and when the lightweight filter rejects every
input item, the result is the first `max_articles` items of the original
input in input order, bypassing scoring. -/
theorem rank_and_filter_fallback_and_bounds (pop : String → Nat)
    (tagger : Option (String → List MecabNode)) (now : ℚ) (items : List NewsItem)
    (trends : Option (List String)) (max_articles : Nat) :
    (rank_and_filter_articles pop tagger now items trends max_articles).length
        ≤ max_articles ∧
      (∀ x ∈ rank_and_filter_articles pop tagger now items trends max_articles,
        x ∈ items) ∧
      ((∀ x ∈ items, lightweight_filter x.title x.summary x.category = false) →
        rank_and_filter_articles pop tagger now items trends max_articles
          = items.take max_articles) := by
  refine ⟨?_, fun x hx => mem_rank_and_filter hx, ?_⟩
  · simp only [rank_and_filter_articles]
    split
    · exact List.length_take_le _ _
    · rw [List.length_map]
      exact List.length_take_le _ _
  · intro hall
    have hfil : items.filter
        (fun x => lightweight_filter x.title x.summary x.category) = [] := by
      rw [List.filter_eq_nil_iff]
      intro a ha
      simp [hall a ha]
    simp [rank_and_filter_articles, hfil]

/-- A candidate short enough that the lightweight filter rejects it. -/
def itemRejected : NewsItem :=
  ⟨"w1", "短すぎる", "http://example/w1", "", 0, "NHK", "総合", none⟩

/-- C10 witness: a batch whose single item is rejected comes back unchanged
(first `max_articles` of the unfiltered input). -/
theorem rank_and_filter_fallback_and_bounds_witness :
    (∀ x ∈ [itemRejected], lightweight_filter x.title x.summary x.category = false) ∧
      rank_and_filter_articles pop0 none 0 [itemRejected] none 20
        = List.take 20 [itemRejected] :=
  ⟨by decide,
    (rank_and_filter_fallback_and_bounds pop0 none 0 [itemRejected] none 20).2.2
      (by decide)⟩

/-! ## C5 — diversity caps -/

/-- Cap invariant of the first selection pass: if the running counts
`sc`/`cc` agree with the counts over `chosen` and respect the caps, then
the pass's result respects both caps. -/
theorem pass1_caps (k k1 k2 : Nat) :
    ∀ (l : List NewsItem) (sc cc : String → Nat) (chosen : List NewsItem),
      (∀ s, (chosen.countP fun i => i.source == s) = sc s) →
      (∀ s, sc s ≤ k1) →
      (∀ s, (chosen.countP fun i => catKey i == s) = cc s) →
      (∀ s, cc s ≤ k2) →
      (∀ s, ((select_pass1 k k1 k2 sc cc chosen l).countP
          fun i => i.source == s) ≤ k1) ∧
      (∀ s, ((select_pass1 k k1 k2 sc cc chosen l).countP
          fun i => catKey i == s) ≤ k2) := by
  intro l
  induction l with
  | nil =>
    intro sc cc chosen h1 h2 h3 h4
    constructor
    · intro s
      rw [select_pass1, h1 s]
      exact h2 s
    · intro s
      rw [select_pass1, h3 s]
      exact h4 s
  | cons x xs ih =>
    intro sc cc chosen h1 h2 h3 h4
    simp only [select_pass1]
    split
    · constructor
      · intro s
        rw [h1 s]
        exact h2 s
      · intro s
        rw [h3 s]
        exact h4 s
    · split
      · exact ih sc cc chosen h1 h2 h3 h4
      · rename_i hfull hcap
        push_neg at hcap
        apply ih
        · intro s
          rw [List.countP_append]
          by_cases hs : s = x.source
          · subst hs
            have e1 : (List.countP (fun i => i.source == x.source) [x]) = 1 := by
              simp
            rw [e1, h1 x.source, if_pos rfl]
          · have e1 : (List.countP (fun i => i.source == s) [x]) = 0 := by
              simp only [List.countP_cons, List.countP_nil, beq_iff_eq, Nat.zero_add]
              exact if_neg fun hc => hs hc.symm
            rw [e1, h1 s, if_neg hs]
            omega
        · intro s
          by_cases hs : s = x.source
          · subst hs
            rw [if_pos rfl]
            exact hcap.1
          · rw [if_neg hs]
            exact h2 s
        · intro s
          rw [List.countP_append]
          by_cases hs : s = catKey x
          · subst hs
            have e1 : (List.countP (fun i => catKey i == catKey x) [x]) = 1 := by
              simp
            rw [e1, h3 (catKey x), if_pos rfl]
          · have e1 : (List.countP (fun i => catKey i == s) [x]) = 0 := by
              simp only [List.countP_cons, List.countP_nil, beq_iff_eq, Nat.zero_add]
              exact if_neg fun hc => hs hc.symm
            rw [e1, h3 s, if_neg hs]
            omega
        · intro s
          by_cases hs : s = catKey x
          · subst hs
            rw [if_pos rfl]
            exact hcap.2
          · rw [if_neg hs]
            exact h4 s

/-- C5 (amended): the selection has at most `max_per_run` items; the capped
first pass respects both per-source and per-category caps; and whenever the
first pass alone reaches `max_per_run`, the returned selection is exactly
that capped pass (so the caps hold for it). When the first pass falls
short, the second pass may exceed the caps even with a pool of at least
`max_per_run` candidates — see the counterexample. -/
theorem diversity_caps_first_pass_and_bound (items : List NewsItem)
    (k k1 k2 : Nat) :
    (select_diverse_batch items k k1 k2).length ≤ k ∧
      (∀ s, ((select_pass1 k k1 k2 (fun _ => 0) (fun _ => 0) [] items).countP
          fun i => i.source == s) ≤ k1) ∧
      (∀ c, ((select_pass1 k k1 k2 (fun _ => 0) (fun _ => 0) [] items).countP
          fun i => catKey i == c) ≤ k2) ∧
      ((select_pass1 k k1 k2 (fun _ => 0) (fun _ => 0) [] items).length = k →
        select_diverse_batch items k k1 k2
          = select_pass1 k k1 k2 (fun _ => 0) (fun _ => 0) [] items) := by
  have base := pass1_caps k k1 k2 items (fun _ => 0) (fun _ => 0) []
    (fun s => rfl) (fun s => Nat.zero_le _) (fun s => rfl) (fun s => Nat.zero_le _)
  refine ⟨?_, base.1, base.2, ?_⟩
  · simp only [select_diverse_batch]
    exact List.length_take_le _ _
  · intro hlen
    simp only [select_diverse_batch]
    rw [if_neg (by omega)]
    exact List.take_of_length_le (le_of_eq hlen)

/-- Six distinct candidates sharing one source and one category. -/
def sixNHK : List NewsItem :=
  [⟨"1", "t1", "http://example/1", "", 0, "NHK", "国際", none⟩,
   ⟨"2", "t2", "http://example/2", "", 0, "NHK", "国際", none⟩,
   ⟨"3", "t3", "http://example/3", "", 0, "NHK", "国際", none⟩,
   ⟨"4", "t4", "http://example/4", "", 0, "NHK", "国際", none⟩,
   ⟨"5", "t5", "http://example/5", "", 0, "NHK", "国際", none⟩,
   ⟨"6", "t6", "http://example/6", "", 0, "NHK", "国際", none⟩]

/-- C5 counterexample: with `max_per_run = 5`, `max_per_source = 2` and a
pool of six candidates (not smaller than `max_per_run`), the returned
selection contains five items of the same source — the second pass exceeds
the per-source cap even though the candidate pool is not smaller than
`max_count`, contradicting the claim's "UNLESS the candidate pool is
smaller than max_count". -/
theorem diversity_caps_exceeded_with_large_pool :
    5 ≤ sixNHK.length ∧
      ((select_diverse_batch sixNHK 5 2 2).countP fun i => i.source == "NHK") = 5 := by
  decide

/-- C5 witness: with `max_per_run = 2` the capped pass fills the quota on
`sixNHK` and the selection is exactly the capped pass. -/
theorem diversity_caps_first_pass_and_bound_witness :
    ((select_pass1 2 2 2 (fun _ => 0) (fun _ => 0) [] sixNHK).length = 2) ∧
      select_diverse_batch sixNHK 2 2 2
        = select_pass1 2 2 2 (fun _ => 0) (fun _ => 0) [] sixNHK :=
  ⟨by decide, (diversity_caps_first_pass_and_bound sixNHK 2 2 2).2.2.2 (by decide)⟩

/-! ## C1 and C2 — the orchestrator's failure and publication paths -/

/-- `generate_all_explanations` emits no persistence event: the cache-hit
path only reads, and the generation path raises before its write. -/
theorem generate_all_explanations_no_events (ext : Ext) (st : Store)
    (article_id title content : String) :
    (generate_all_explanations ext st article_id title content).2.2 = [] := by
  unfold generate_all_explanations
  cases get_cached st article_id <;> rfl

/-- `generate_all_explanations` leaves the stores untouched. -/
theorem generate_all_explanations_store_unchanged (ext : Ext) (st : Store)
    (article_id title content : String) :
    (generate_all_explanations ext st article_id title content).2.1 = st := by
  unfold generate_all_explanations
  cases get_cached st article_id <;> rfl

/-- A run of `process_rss_to_site_article` that returns True produces
exactly the event list "article saved, then generated content saved", both
for the item's identity. -/
theorem process_ok_true_evs (ext : Ext) (st : Store) (item : NewsItem)
    (force : Bool)
    (h : (process_rss_to_site_article ext st item force).1 = .ok true) :
    (process_rss_to_site_article ext st item force).2.2
      = [.saveArticle item.id, .saveCache item.id] := by
  simp only [process_rss_to_site_article] at h ⊢
  by_cases h1 : (!force && (get_cached st item.id).isSome) = true
  · rw [if_pos h1] at h
    exact absurd h (by simp)
  · rw [if_neg h1] at h ⊢
    have hevs := generate_all_explanations_no_events ext st item.id
      (prepared_item ext item).title (prepared_content ext (prepared_item ext item))
    rcases hg : (generate_all_explanations ext st item.id (prepared_item ext item).title
        (prepared_content ext (prepared_item ext item))).1 with e | data
    · rw [hg] at h
      simp at h
    · rw [hg] at h
      by_cases hempty : data.blocks.isEmpty = true
      · simp [hempty] at h
      · by_cases hsave : ext.save_article_ok (prepared_item ext item) = true
        · simp [hempty, hsave, hevs]
        · simp [hempty, hsave] at h

/-- C2: whenever `process_rss_to_site_article` succeeds (returns True),
every persisted GeneratedContent write for the item's identity is strictly
preceded by the PublishedArticle write for that identity within the run's
event trace. -/
theorem published_implies_article_saved_before_cache (ext : Ext) (st : Store)
    (item : NewsItem) (force : Bool)
    (h : (process_rss_to_site_article ext st item force).1 = .ok true) :
    ∀ i : Nat,
      ((process_rss_to_site_article ext st item force).2.2).get? i
          = some (.saveCache item.id) →
        ∃ j, j < i ∧
          ((process_rss_to_site_article ext st item force).2.2).get? j
            = some (.saveArticle item.id) := by
  intro i hi
  rw [process_ok_true_evs ext st item force h] at hi ⊢
  match i with
  | 0 => simp [List.get?] at hi
  | 1 => exact ⟨0, by omega, rfl⟩
  | n + 2 => simp [List.get?] at hi

/-- A Japanese-titled candidate (no translation needed). -/
def itemJa : NewsItem :=
  ⟨"n1", "あいうえおかきくけこ", "http://example/n1", "", 0, "NHK", "総合", none⟩

/-- The empty stores. -/
def store0 : Store := ⟨[], []⟩

/-- A well-formed cached explanation (not a bad fallback). -/
def goodEntry : CacheEntry := ⟨[⟨"text", "こんにちは", ""⟩], ["", "", "", "", ""]⟩

/-- Stores that already hold generated content for `itemJa`. -/
def storeCached : Store := ⟨[], [("n1", goodEntry)]⟩

/-- C2 witness: a concrete successful (forced, cache-hit) run whose trace
puts the article write strictly before the content write. -/
theorem published_implies_article_saved_before_cache_witness :
    (process_rss_to_site_article ext0 storeCached itemJa true).1 = .ok true ∧
      ∀ i : Nat,
        ((process_rss_to_site_article ext0 storeCached itemJa true).2.2).get? i
            = some (.saveCache itemJa.id) →
          ∃ j, j < i ∧
            ((process_rss_to_site_article ext0 storeCached itemJa true).2.2).get? j
              = some (.saveArticle itemJa.id) :=
  ⟨by rfl,
    published_implies_article_saved_before_cache ext0 storeCached itemJa true
      (by rfl)⟩

/-- C1 (code behaviour at the failing input): for an uncached candidate
whose content generation returns the empty block list, the source does not
return False — the `save_cache(..., quick_understand=..., vote_data=...)`
call inside `generate_all_explanations` raises `TypeError` (the imported
`explanation_cache.save_cache` takes only three parameters), and the
exception propagates out of `process_rss_to_site_article`. Both stores are
left unchanged and no persistence event occurs, so the identity does stay
eligible for retry. -/
theorem generation_failure_raises_typeerror_stores_unchanged :
    process_rss_to_site_article ext0 store0 itemJa false
      = (.error .typeError, store0, []) := by
  rfl

/-! ## Dedup walk — structural lemmas -/

theorem dedup_mem {existing : List String} :
    ∀ {l : List NewsItem} {seen : List String} {x : NewsItem},
      x ∈ dedup_by_norm existing seen l → x ∈ l := by
  intro l
  induction l with
  | nil => intro seen x hx; simp [dedup_by_norm] at hx
  | cons y ys ih =>
    intro seen x hx
    simp only [dedup_by_norm] at hx
    split at hx
    · exact List.mem_cons_of_mem _ (ih hx)
    · split at hx
      · exact List.mem_cons_of_mem _ (ih hx)
      · rcases List.mem_cons.mp hx with rfl | hx2
        · exact List.mem_cons_self _ _
        · exact List.mem_cons_of_mem _ (ih hx2)

theorem dedup_not_existing {existing : List String} :
    ∀ {l : List NewsItem} {seen : List String} {x : NewsItem},
      x ∈ dedup_by_norm existing seen l →
        normalize_title_for_dedup x.title ∉ existing := by
  intro l
  induction l with
  | nil => intro seen x hx; simp [dedup_by_norm] at hx
  | cons y ys ih =>
    intro seen x hx
    simp only [dedup_by_norm] at hx
    split at hx
    · exact ih hx
    · split at hx
      · exact ih hx
      · rcases List.mem_cons.mp hx with rfl | hx2
        · rename_i hc _
          intro hmem
          exact hc (by simpa using hmem)
        · exact ih hx2

theorem dedup_not_seen {existing : List String} :
    ∀ {l : List NewsItem} {seen : List String} {x : NewsItem},
      x ∈ dedup_by_norm existing seen l →
        normalize_title_for_dedup x.title ∉ seen := by
  intro l
  induction l with
  | nil => intro seen x hx; simp [dedup_by_norm] at hx
  | cons y ys ih =>
    intro seen x hx
    simp only [dedup_by_norm] at hx
    split at hx
    · exact ih hx
    · split at hx
      · exact ih hx
      · rcases List.mem_cons.mp hx with rfl | hx2
        · rename_i _ hc2
          intro hmem
          exact hc2 (by simpa using hmem)
        · intro hmem
          exact ih hx2 (List.mem_cons_of_mem _ hmem)

theorem dedup_pairwise (existing : List String) :
    ∀ (l : List NewsItem) (seen : List String),
      (dedup_by_norm existing seen l).Pairwise fun a b =>
        normalize_title_for_dedup a.title ≠ normalize_title_for_dedup b.title := by
  intro l
  induction l with
  | nil => intro seen; simp [dedup_by_norm]
  | cons y ys ih =>
    intro seen
    simp only [dedup_by_norm]
    split
    · exact ih seen
    · split
      · exact ih seen
      · refine List.Pairwise.cons ?_ (ih _)
        intro z hz heq
        exact dedup_not_seen hz (heq ▸ List.mem_cons_self _ _)

theorem dedup_first {existing : List String} :
    ∀ {l : List NewsItem} {seen : List String} {x : NewsItem},
      x ∈ dedup_by_norm existing seen l →
        ∃ l1 l2, l = l1 ++ x :: l2 ∧
          ∀ y ∈ l1,
            normalize_title_for_dedup y.title ≠ normalize_title_for_dedup x.title := by
  intro l
  induction l with
  | nil => intro seen x hx; simp [dedup_by_norm] at hx
  | cons y ys ih =>
    intro seen x hx
    simp only [dedup_by_norm] at hx
    split at hx
    · rename_i hc
      rcases ih hx with ⟨l1, l2, heq, hl1⟩
      refine ⟨y :: l1, l2, by rw [heq]; rfl, ?_⟩
      intro z hz
      rcases List.mem_cons.mp hz with rfl | hz2
      · intro heq2
        exact dedup_not_existing hx (heq2 ▸ (by simpa using hc))
      · exact hl1 z hz2
    · split at hx
      · rename_i _ hc2
        rcases ih hx with ⟨l1, l2, heq, hl1⟩
        refine ⟨y :: l1, l2, by rw [heq]; rfl, ?_⟩
        intro z hz
        rcases List.mem_cons.mp hz with rfl | hz2
        · intro heq2
          exact dedup_not_seen hx (heq2 ▸ (by simpa using hc2))
        · exact hl1 z hz2
      · rcases List.mem_cons.mp hx with rfl | hx2
        · exact ⟨[], ys, rfl, by simp⟩
        · rcases ih hx2 with ⟨l1, l2, heq, hl1⟩
          refine ⟨y :: l1, l2, by rw [heq]; rfl, ?_⟩
          intro z hz
          rcases List.mem_cons.mp hz with rfl | hz2
          · intro heq2
            exact dedup_not_seen hx2 (heq2 ▸ List.mem_cons_self _ _)
          · exact hl1 z hz2

theorem dedup_ne_nil {existing : List String} :
    ∀ {l : List NewsItem} {seen : List String},
      (∃ x ∈ l, normalize_title_for_dedup x.title ∉ existing ∧
        normalize_title_for_dedup x.title ∉ seen) →
      dedup_by_norm existing seen l ≠ [] := by
  intro l
  induction l with
  | nil =>
    intro seen h
    rcases h with ⟨x, hx, _⟩
    simp at hx
  | cons y ys ih =>
    intro seen h
    rcases h with ⟨x, hx, hex, hseen⟩
    simp only [dedup_by_norm]
    split
    · rename_i hc
      apply ih
      rcases List.mem_cons.mp hx with rfl | hx2
      · exact absurd (by simpa using hc) hex
      · exact ⟨x, hx2, hex, hseen⟩
    · split
      · rename_i _ hc2
        apply ih
        rcases List.mem_cons.mp hx with rfl | hx2
        · exact absurd (by simpa using hc2) hseen
        · exact ⟨x, hx2, hex, hseen⟩
      · simp

/-! ## Selection — structural lemmas -/

theorem pass1_shape (k k1 k2 : Nat) :
    ∀ (l : List NewsItem) (sc cc : String → Nat) (chosen : List NewsItem),
      ∃ t, select_pass1 k k1 k2 sc cc chosen l = chosen ++ t ∧ t.Sublist l := by
  intro l
  induction l with
  | nil =>
    intro sc cc chosen
    exact ⟨[], by simp [select_pass1], List.nil_sublist _⟩
  | cons x xs ih =>
    intro sc cc chosen
    simp only [select_pass1]
    split
    · exact ⟨[], by simp, List.nil_sublist _⟩
    · split
      · rcases ih sc cc chosen with ⟨t, ht, hsub⟩
        exact ⟨t, ht, hsub.cons _⟩
      · rcases ih _ _ (chosen ++ [x]) with ⟨t, ht, hsub⟩
        refine ⟨x :: t, ?_, hsub.cons₂ _⟩
        rw [ht, List.append_assoc]
        rfl

theorem pass2_shape (k : Nat) :
    ∀ (l : List NewsItem) (chosen : List NewsItem),
      ∃ t, select_pass2 k chosen l = chosen ++ t ∧ t.Sublist l ∧
        ∀ y ∈ t, y ∉ chosen := by
  intro l
  induction l with
  | nil =>
    intro chosen
    exact ⟨[], by simp [select_pass2], List.nil_sublist _, by simp⟩
  | cons x xs ih =>
    intro chosen
    simp only [select_pass2]
    split
    · exact ⟨[], by simp, List.nil_sublist _, by simp⟩
    · split
      · rcases ih chosen with ⟨t, ht, hsub, hdis⟩
        exact ⟨t, ht, hsub.cons _, hdis⟩
      · rename_i hfull hcon
        rcases ih (chosen ++ [x]) with ⟨t, ht, hsub, hdis⟩
        refine ⟨x :: t, ?_, hsub.cons₂ _, ?_⟩
        · rw [ht, List.append_assoc]
          rfl
        · intro y hy
          rcases List.mem_cons.mp hy with rfl | hy2
          · intro hmem
            exact hcon (by simpa using hmem)
          · intro hmem
            exact hdis y hy2 (List.mem_append_left _ hmem)

theorem select_mem {l : List NewsItem} {k k1 k2 : Nat} {x : NewsItem}
    (hx : x ∈ select_diverse_batch l k k1 k2) : x ∈ l := by
  simp only [select_diverse_batch] at hx
  rcases pass1_shape k k1 k2 l (fun _ => 0) (fun _ => 0) [] with ⟨t1, ht1, hsub1⟩
  rw [ht1] at hx
  simp only [List.nil_append] at hx
  split at hx
  · rcases pass2_shape k l t1 with ⟨t2, ht2, hsub2, hdis⟩
    rw [ht2] at hx
    have hmem := List.Sublist.mem hx (List.take_sublist _ _)
    rcases List.mem_append.mp hmem with hm | hm
    · exact List.Sublist.mem hm hsub1
    · exact List.Sublist.mem hm hsub2
  · have hmem := List.Sublist.mem hx (List.take_sublist _ _)
    exact List.Sublist.mem hmem hsub1

theorem select_nodup {l : List NewsItem} {k k1 k2 : Nat} (hl : l.Nodup) :
    (select_diverse_batch l k k1 k2).Nodup := by
  simp only [select_diverse_batch]
  rcases pass1_shape k k1 k2 l (fun _ => 0) (fun _ => 0) [] with ⟨t1, ht1, hsub1⟩
  rw [ht1]
  simp only [List.nil_append]
  have ht1n : t1.Nodup := List.Sublist.nodup hsub1 hl
  refine List.Sublist.nodup (List.take_sublist _ _) ?_
  split
  · rcases pass2_shape k l t1 with ⟨t2, ht2, hsub2, hdis⟩
    rw [ht2, List.nodup_append]
    exact ⟨ht1n, List.Sublist.nodup hsub2 hl, fun a ha hb => hdis a hb ha⟩
  · exact ht1n

theorem select_nonempty {l : List NewsItem} {k k1 k2 : Nat}
    (hl : l ≠ []) (hk : 0 < k) (hk1 : 0 < k1) (hk2 : 0 < k2) :
    select_diverse_batch l k k1 k2 ≠ [] := by
  rcases l with _ | ⟨x, xs⟩
  · exact absurd rfl hl
  have hlen1 : 0 < (select_pass1 k k1 k2 (fun _ => 0) (fun _ => 0) [] (x :: xs)).length := by
    simp only [select_pass1]
    rw [if_neg (by simp; omega)]
    rw [if_neg (by omega)]
    rcases pass1_shape k k1 k2 xs _ _ ([] ++ [x]) with ⟨t, ht, _⟩
    rw [ht]
    simp
  simp only [select_diverse_batch]
  apply List.ne_nil_of_length_pos
  rw [List.length_take]
  have hlen2 : 0 <
      (if (select_pass1 k k1 k2 (fun _ => 0) (fun _ => 0) [] (x :: xs)).length < k then
        select_pass2 k (select_pass1 k k1 k2 (fun _ => 0) (fun _ => 0) [] (x :: xs))
          (x :: xs)
      else select_pass1 k k1 k2 (fun _ => 0) (fun _ => 0) [] (x :: xs)).length := by
    split
    · rcases pass2_shape k (x :: xs)
          (select_pass1 k k1 k2 (fun _ => 0) (fun _ => 0) [] (x :: xs)) with
        ⟨t2, ht2, _, _⟩
      rw [ht2, List.length_append]
      omega
    · exact hlen1
  omega

/-! ## The two shapes of the selection phase -/

/-- When every candidate already has cached content, the selection re-ranks
the entire original batch and runs with `force = True`. -/
theorem rss_selection_force (ext : Ext) (st : Store) (rss_items : List NewsItem)
    (k : Nat) (trends : Option (List String))
    (h : rss_items.filter (fun x => !((cachedIds st).contains x.id)) = []) :
    rss_selection ext st rss_items k trends
      = (select_diverse_batch
          (dedup_by_norm (st.articles.map fun a => normalize_title_for_dedup a.title) []
            (rank_and_filter_articles ext.pop ext.tagger ext.now rss_items trends
              (k * 3)))
          k 2 2, true) := by
  simp only [rss_selection, h, List.isEmpty_nil, Bool.not_true]
  split
  · rename_i hcontra
    exact absurd hcontra (by simp)
  · rfl

/-- With at least one uncached candidate, the selection ranks only the
uncached ones and runs with `force = False`. -/
theorem rss_selection_nonforce (ext : Ext) (st : Store) (rss_items : List NewsItem)
    (k : Nat) (trends : Option (List String))
    (h : rss_items.filter (fun x => !((cachedIds st).contains x.id)) ≠ []) :
    rss_selection ext st rss_items k trends
      = (select_diverse_batch
          (dedup_by_norm (st.articles.map fun a => normalize_title_for_dedup a.title) []
            (rank_and_filter_articles ext.pop ext.tagger ext.now
              (rss_items.filter fun x => !((cachedIds st).contains x.id)) trends
              (k * 3)))
          k 2 2, false) := by
  have hb : (rss_items.filter fun x => !((cachedIds st).contains x.id)).isEmpty
      = false := List.isEmpty_eq_false.mpr h
  simp only [rss_selection, hb, Bool.not_false]
  split
  · rfl
  · rename_i hcontra
    exact absurd trivial hcontra

/-! ## C3 — the force-fallback path -/

/-- C3 (amended): when every candidate of a non-empty batch already has
cached content, `process_new_rss_articles` re-ranks the entire original
batch and runs with `force = True`; and whenever some re-ranked candidate
survives the title dedup against the published history, at least one
candidate is selected for processing. (Without such a survivor the
selection can be empty — see the counterexample.) -/
theorem force_fallback_selects_when_title_unpublished (ext : Ext) (st : Store)
    (rss_items : List NewsItem) (max_per_run : Nat) (trends : Option (List String))
    (hmax : 0 < max_per_run)
    (hcached : rss_items.filter (fun x => !((cachedIds st).contains x.id)) = [])
    (hsurv : ∃ x ∈ rank_and_filter_articles ext.pop ext.tagger ext.now rss_items
        trends (max_per_run * 3),
      normalize_title_for_dedup x.title ∉
        st.articles.map fun a => normalize_title_for_dedup a.title) :
    (rss_selection ext st rss_items max_per_run trends).2 = true ∧
      (rss_selection ext st rss_items max_per_run trends).1 ≠ [] := by
  rw [rss_selection_force ext st rss_items max_per_run trends hcached]
  refine ⟨rfl, ?_⟩
  rcases hsurv with ⟨x, hx, hnot⟩
  exact select_nonempty (dedup_ne_nil ⟨x, hx, hnot, by simp⟩) hmax
    (by omega) (by omega)

/-- A fully processed candidate whose title matches a published article. -/
def itemShort : NewsItem :=
  ⟨"f1", "短い記事", "http://example/f1", "", 0, "NHK", "総合", none⟩

/-- A published article with the same normalised title as `itemShort`. -/
def publishedSame : NewsItem :=
  ⟨"p1", "短い記事", "http://example/p1", "", 0, "NHK", "総合", none⟩

/-- Stores where `itemShort` is cached and its title already published. -/
def storeAllCached : Store := ⟨[publishedSame], [("f1", goodEntry)]⟩

/-- C3 counterexample: a non-empty batch in which every candidate's
identity has cached content takes the force-fallback path, yet the
selection is empty — the dedup against published titles still applies to
the fallback batch, so no candidate is selected or submitted, contradicting
"at least one candidate is selected and submitted for processing". -/
theorem force_fallback_can_select_nothing :
    [itemShort] ≠ [] ∧
      (∀ x ∈ [itemShort], (cachedIds storeAllCached).contains x.id = true) ∧
      rss_selection ext0 storeAllCached [itemShort] 5 none = ([], true) := by
  decide

/-- A fully processed candidate whose title is not yet published. -/
def itemShort2 : NewsItem :=
  ⟨"g1", "別の短い記事", "http://example/g1", "", 0, "NHK", "総合", none⟩

/-- Stores where `itemShort2` is cached but nothing is published. -/
def storeCachedOnly : Store := ⟨[], [("g1", goodEntry)]⟩

/-- C3 witness: all candidates cached, one title unpublished — the
fallback selects at least one candidate and sets `force`. -/
theorem force_fallback_selects_when_title_unpublished_witness :
    (0 < 5 ∧
        [itemShort2].filter
          (fun x => !((cachedIds storeCachedOnly).contains x.id)) = []) ∧
      (rss_selection ext0 storeCachedOnly [itemShort2] 5 none).2 = true ∧
        (rss_selection ext0 storeCachedOnly [itemShort2] 5 none).1 ≠ [] :=
  ⟨⟨by decide, by decide⟩,
    force_fallback_selects_when_title_unpublished ext0 storeCachedOnly [itemShort2] 5
      none (by decide) (by decide) (by decide)⟩

/-! ## C4 — dedup completeness of the normal selection -/

/-- C4: under normal (non-force) operation the selected batch never
contains two items with the same normalised title, never contains an item
whose normalised title matches a published article, and every selected item
is the first occurrence of its normalised title in the ranked candidate
list (ranked score-descending, so the highest-scored occurrence). -/
theorem nonforce_selection_dedup_complete (ext : Ext) (st : Store)
    (rss_items : List NewsItem) (max_per_run : Nat) (trends : Option (List String))
    (h : rss_items.filter (fun x => !((cachedIds st).contains x.id)) ≠ []) :
    (rss_selection ext st rss_items max_per_run trends).2 = false ∧
      ((rss_selection ext st rss_items max_per_run trends).1.Pairwise fun a b =>
        normalize_title_for_dedup a.title ≠ normalize_title_for_dedup b.title) ∧
      (∀ x ∈ (rss_selection ext st rss_items max_per_run trends).1,
        normalize_title_for_dedup x.title ∉
          st.articles.map fun a => normalize_title_for_dedup a.title) ∧
      (∀ x ∈ (rss_selection ext st rss_items max_per_run trends).1,
        ∃ l1 l2,
          rank_and_filter_articles ext.pop ext.tagger ext.now
              (rss_items.filter fun x => !((cachedIds st).contains x.id)) trends
              (max_per_run * 3)
            = l1 ++ x :: l2 ∧
          ∀ y ∈ l1,
            normalize_title_for_dedup y.title ≠ normalize_title_for_dedup x.title) := by
  rw [rss_selection_nonforce ext st rss_items max_per_run trends h]
  generalize (st.articles.map fun a => normalize_title_for_dedup a.title) = E
  generalize rank_and_filter_articles ext.pop ext.tagger ext.now
      (rss_items.filter fun x => !((cachedIds st).contains x.id)) trends
      (max_per_run * 3) = R
  refine ⟨rfl, ?_, ?_, ?_⟩
  · have hpw := dedup_pairwise E R []
    have hnd : (dedup_by_norm E [] R).Nodup := by
      refine List.Pairwise.imp ?_ hpw
      intro a b hne heq
      subst heq
      exact hne rfl
    refine List.Pairwise.imp_of_mem ?_ (select_nodup hnd)
    intro a b ha hb hne
    have hsymm : Symmetric (fun a b : NewsItem =>
        normalize_title_for_dedup a.title ≠ normalize_title_for_dedup b.title) :=
      fun p q hpq heq => hpq heq.symm
    exact List.Pairwise.forall hsymm hpw (select_mem ha) (select_mem hb) hne
  · intro x hx
    exact dedup_not_existing (select_mem hx)
  · intro x hx
    exact dedup_first (select_mem hx)

/-- An uncached candidate. -/
def itemUncached : NewsItem :=
  ⟨"w4", "これも短い", "http://example/w4", "", 0, "NHK", "総合", none⟩

/-- C4 witness: a batch with one uncached candidate runs the non-force
path and its selection satisfies all three dedup guarantees. -/
theorem nonforce_selection_dedup_complete_witness :
    ([itemUncached].filter (fun x => !((cachedIds store0).contains x.id)) ≠ []) ∧
      ((rss_selection ext0 store0 [itemUncached] 5 none).2 = false ∧
        ((rss_selection ext0 store0 [itemUncached] 5 none).1.Pairwise fun a b =>
          normalize_title_for_dedup a.title ≠ normalize_title_for_dedup b.title) ∧
        (∀ x ∈ (rss_selection ext0 store0 [itemUncached] 5 none).1,
          normalize_title_for_dedup x.title ∉
            store0.articles.map fun a => normalize_title_for_dedup a.title) ∧
        (∀ x ∈ (rss_selection ext0 store0 [itemUncached] 5 none).1,
          ∃ l1 l2,
            rank_and_filter_articles ext0.pop ext0.tagger ext0.now
                ([itemUncached].filter
                  fun x => !((cachedIds store0).contains x.id)) none (5 * 3)
              = l1 ++ x :: l2 ∧
            ∀ y ∈ l1,
              normalize_title_for_dedup y.title
                ≠ normalize_title_for_dedup x.title)) :=
  ⟨by decide,
    nonforce_selection_dedup_complete ext0 store0 [itemUncached] 5 none (by decide)⟩

end NewsPipeline
